import Mathlib

/-!
Verification development for the Docgen repository: a shallow embedding of
the entity model, the dependency resolver, the member registry with its
incremental cache, and the description-generation client, together with
theorems settling the specification's claims about them.
-/

set_option autoImplicit false

namespace Docgen

/-! ## Dependency resolver (src/Languages/Java/models.py, JavaMethod.resolve_dependencies)

The resolver looks methods up through two registry attributes,
`MemberRegistry.methods` (scoped fullname -> method) and
`MemberRegistry.methods_by_name` (short name -> list of methods).
-/

/-- The method record as used by the resolver iteration in
src/Languages/Java/models.py: a class name, a short identifier and the
parameter list (whose length is the arity). -/
structure JMethod where
  class_name : String
  identifier : String
  params : List String
  deriving DecidableEq, Repr

/-- Modelled from the spec: the registry attributes `methods` and
`methods_by_name` read by `JavaMethod.resolve_dependencies` belong to a
registry iteration that is absent from src/ (src/member_registry.py instead
exposes `map_umid`/`map_scoped`/`map_short`).  Following the spec's Symbol
Registry (§3), `methods` maps a scoped fullname `Class.name` to a method and
`methods_by_name` maps a bare identifier to all methods sharing it
(defaultdict semantics: a missing key reads as the empty list). -/
structure OldRegistry where
  methods : List (String × JMethod)
  methods_by_name : List (String × List JMethod)
  deriving Repr

/-- Membership/`dict.get` read of `MemberRegistry.methods`. -/
def OldRegistry.lookupScoped (reg : OldRegistry) (key : String) : Option JMethod :=
  (reg.methods.find? (fun p => p.1 == key)).map (fun p => p.2)

/-- `MemberRegistry.methods_by_name[name]` with defaultdict semantics. -/
def OldRegistry.lookupShort (reg : OldRegistry) (name : String) : List JMethod :=
  ((reg.methods_by_name.find? (fun p => p.1 == name)).map (fun p => p.2)).getD []

/-- The body of the per-name loop of `JavaMethod.resolve_dependencies`
(src/Languages/Java/models.py lines 482-505): the list of methods appended to
`self.dependencies` for one raw dependency name.

* Local tier: if `class_name + "." + name` is a key of the registry, append
  that method and continue to the next raw name.
* Import tier: for each import `i`, if `i + "." + name` is a key, append it;
  the `continue` there only ends that iteration of the inner import loop, so
  control always falls through to the short-name tier.
* Short-name tier: if exactly one method bears the bare name, append it;
  otherwise extend with the whole (possibly empty) candidate list. -/
def resolveName (reg : OldRegistry) (class_name : String) (imports : List String)
    (name : String) : List JMethod :=
  match reg.lookupScoped (class_name ++ "." ++ name) with
  | some m => [m]
  | none =>
      let importMatches := imports.filterMap
        (fun i => reg.lookupScoped (i ++ "." ++ name))
      let short := reg.lookupShort name
      importMatches ++ (match short with
        | [m] => [m]
        | ms => ms)

/-- The mutable state of a method that `resolve_dependencies` acts on.  The
source `JavaMethod` carries only `dependencies`; `unresolved_dependencies` is
the field the spec ascribes to a Method, carried here so claims about it can
be stated — the source resolver never declares or writes such a list, so the
embedded resolver leaves the field untouched. -/
structure ResolveState where
  dependencies : List JMethod
  unresolved_dependencies : List String
  deriving DecidableEq, Repr

/-- `JavaMethod.resolve_dependencies` after dependency-name extraction: fold
the per-name loop over the raw names, appending to `self.dependencies`.  No
write to any other field occurs in the source. -/
def resolve_dependencies (reg : OldRegistry) (class_name : String)
    (imports : List String) (names : List String) (s : ResolveState) : ResolveState :=
  { s with dependencies :=
      s.dependencies ++ names.flatMap (resolveName reg class_name imports) }

/-! ## Member registry and incremental cache (src/member_registry.py) -/

/-- Modelled from the spec: the final Method entity whose attributes
`umid`, `scoped_identifier`, `identifier`, `body_hash` and `description` are
read and written by `MemberRegistry` — its class definition is absent from
src/ (src only carries superseded Method iterations without these fields).
Per §3 they are plain strings; `description` is the mutable annotation. -/
structure RMethod where
  umid : String
  scoped_identifier : String
  identifier : String
  body_hash : String
  description : String
  deriving DecidableEq, Repr

/-- One value of the persisted cache map: `umid -> \x7bhash, description\x7d`. -/
structure CacheEntry where
  hash : String
  description : String
  deriving DecidableEq, Repr

/-- Python `dict` assignment `d[k] = v` on an association list: overwrite the
value at the first (for a dict: only) occurrence of the key in place,
otherwise append a fresh entry at the end. -/
def dictSet {α : Type} : List (String × α) → String → α → List (String × α)
  | [], k, v => [(k, v)]
  | p :: t, k, v => if p.1 == k then (k, v) :: t else p :: dictSet t k v

/-- Python `defaultdict(list)` append `d[k].append(v)`: extend the list at
the key, materialising an empty list first when the key is absent. -/
def dictAppend {α : Type} : List (String × List α) → String → α → List (String × List α)
  | [], k, v => [(k, [v])]
  | p :: t, k, v => if p.1 == k then (p.1, p.2 ++ [v]) :: t else p :: dictAppend t k v

/-- Read of a `defaultdict(list)` entry: the stored list, or `[]`. -/
def dictGetList {α : Type} (d : List (String × List α)) (k : String) : List α :=
  ((d.find? (fun p => p.1 == k)).map (fun p => p.2)).getD []

/-- Number of entries a dict-as-association-list holds under one key. -/
def countKey {α : Type} (d : List (String × α)) (k : String) : Nat :=
  (d.filter (fun p => p.1 == k)).length

/-- The three indices of `MemberRegistry` (src/member_registry.py lines 4-14):
`map_umid` is a dict, `map_scoped` and `map_short` are defaultdicts of lists. -/
structure MemberRegistry where
  map_umid : List (String × RMethod)
  map_scoped : List (String × List RMethod)
  map_short : List (String × List RMethod)
  deriving Repr

/-- `MemberRegistry.add_method` (src/member_registry.py lines 17-23): write
the method under its umid in `map_umid`, and append it to the lists under its
scoped identifier in `map_scoped` and its short identifier in `map_short`. -/
def MemberRegistry.add_method (reg : MemberRegistry) (m : RMethod) : MemberRegistry :=
  { map_umid := dictSet reg.map_umid m.umid m
    map_scoped := dictAppend reg.map_scoped m.scoped_identifier m
    map_short := dictAppend reg.map_short m.identifier m }

/-- `MemberRegistry.get_method_cache` (src/member_registry.py lines 25-30):
a fresh map sending each registered method's umid to its current body hash
and description.  The iteration is over `map_umid.values()`, passed here as
the list of registered methods. -/
def get_method_cache (methods : List RMethod) : List (String × CacheEntry) :=
  methods.map (fun m => (m.umid, ⟨m.body_hash, m.description⟩))

/-- `cache.get(umid)`: first entry under the key, if any. -/
def cacheGet (cache : List (String × CacheEntry)) (k : String) : Option CacheEntry :=
  (cache.find? (fun p => p.1 == k)).map (fun p => p.2)

/-- The per-method body of `MemberRegistry.load_cache`
(src/member_registry.py lines 35-40): when the cache holds an entry for the
method's umid whose stored hash equals the method's body hash, seed the
description from the cache; otherwise clear it to the empty string. -/
def seedDescription (cache : List (String × CacheEntry)) (m : RMethod) : RMethod :=
  match cacheGet cache m.umid with
  | some cached_data =>
      if cached_data.hash == m.body_hash then
        { m with description := cached_data.description }
      else
        { m with description := "" }
  | none => { m with description := "" }

/-- `MemberRegistry.load_cache` (src/member_registry.py lines 32-40) acting
on the registered methods (`map_umid.values()`): each method's description is
re-seeded from the cache. -/
def load_cache (cache : List (String × CacheEntry)) (methods : List RMethod) :
    List RMethod :=
  methods.map (seedDescription cache)

/-! ## Description generation client (src/llm_client.py, GeminiClient.generate_description) -/

/-- The per-method data `generate_description` reads off each value of
`class_obj.methods`: signature, body, and current (possibly cached)
description.  Python truthiness of `m.description` is non-emptiness. -/
structure GMethod where
  signature : String
  body : String
  description : String
  deriving DecidableEq, Repr

/-- The per-class data `generate_description` reads off `class_obj`: its
`ucid`, raw `body`, ordered method values, field signatures and child-class
(signature, description) pairs. -/
structure GClass where
  ucid : String
  body : String
  methods : List GMethod
  fields : List String
  child_classes : List (String × String)
  deriving Repr

/-- The two request payload shapes built by `generate_description`
(src/llm_client.py lines 49-76): `cold` carries the raw class body, ucid,
imports, the index-to-signature map over every method and the child-class
signatures; `warm` carries the ucid, field signatures, the
index-to-cached-description map over clean methods, the index-to-body map
over dirty methods only, imports and the child-class signature/description
pairs. -/
inductive Payload where
  | cold (code : String) (ucid : String) (imports : List String)
      (method_ids_to_signatures : List (Nat × String))
      (child_classes : List String)
  | warm (ucid : String) (fields : List String)
      (cached_methods : List (Nat × String))
      (methods_to_generate : List (Nat × String))
      (imports : List String)
      (child_classes : List (String × String))
  deriving DecidableEq, Repr

/-- Payload selection and shaping of `generate_description`
(src/llm_client.py lines 44-76): `method_lookup` enumerates the class's
method values; when no method has a (truthy) description the cold payload is
built, otherwise the warm payload with clean methods contributing their
descriptions and dirty methods their bodies. -/
def build_payload (class_obj : GClass) (imports : List String) : Payload :=
  let method_lookup := class_obj.methods.enum
  let has_cached_methods := class_obj.methods.any (fun m => m.description != "")
  if has_cached_methods then
    .warm class_obj.ucid class_obj.fields
      (method_lookup.filterMap (fun p =>
        if p.2.description != "" then some (p.1, p.2.description) else none))
      (method_lookup.filterMap (fun p =>
        if p.2.description == "" then some (p.1, p.2.body) else none))
      imports class_obj.child_classes
  else
    .cold class_obj.body class_obj.ucid imports
      (method_lookup.map (fun p => (p.1, p.2.signature)))
      (class_obj.child_classes.map (fun p => p.1))

/-- Outcome of one generator call attempt: a parsed response, or an
exception whose string form is inspected for the transient markers. -/
inductive CallOutcome (μ : Type) where
  | ok (v : μ)
  | exn (error_str : String)
  deriving Repr

/-- What `generate_description` returns: the parsed data on success, or the
error record `\x7bucid, error, status\x7d` built in the except-branch.  The
source never re-raises: every path returns a value. -/
inductive GenResult (μ : Type) where
  | success (v : μ)
  | errorRecord (ucid : String) (error : String) (status : String)
  | loopExhausted
  deriving DecidableEq, Repr

/-- `max_retries = 3` (src/llm_client.py line 81). -/
def max_retries : Nat := 3

/-- `base_delay = 2` (src/llm_client.py line 82). -/
def base_delay : Nat := 2

/-- Python's `needle in haystack` on strings: contiguous-substring test. -/
def charsContain (needle : List Char) : List Char → Bool
  | [] => needle.isPrefixOf []
  | c :: rest => needle.isPrefixOf (c :: rest) || charsContain needle rest

/-- The transiency test of the except-branch: `"503" in error_str or "429"
in error_str` (substring containment, src/llm_client.py line 114). -/
def isTransient (error_str : String) : Bool :=
  charsContain "503".data error_str.data || charsContain "429".data error_str.data

/-- The retry loop `for attempt in range(max_retries)` of
`generate_description` (src/llm_client.py lines 85-125), with the external
call abstracted as `call : attempt index -> outcome`.  Returns the result
together with the list of backoff delays slept, in order.  A transient
failure at `attempt < max_retries - 1` sleeps `base_delay * 2 ^ attempt` and
retries; any other failure returns the error record with `status = "error"`
at once.  `fuel` counts the loop iterations left; exhausting the `for` loop
(unreachable in the source, as every branch returns or continues) yields
`loopExhausted`, standing for Python's implicit `return None`. -/
def genLoop {μ : Type} (ucid : String) (call : Nat → CallOutcome μ) :
    Nat → Nat → GenResult μ × List Nat
  | _, 0 => (.loopExhausted, [])
  | attempt, fuel + 1 =>
      match call attempt with
      | .ok v => (.success v, [])
      | .exn error_str =>
          if isTransient error_str ∧ attempt < max_retries - 1 then
            let sleep_time := base_delay * 2 ^ attempt
            let rest := genLoop ucid call (attempt + 1) fuel
            (rest.1, sleep_time :: rest.2)
          else
            (.errorRecord ucid error_str "error", [])

/-- `GeminiClient.generate_description`'s control flow after payload
construction: run the retry loop from attempt 0 with `max_retries` loop
iterations available. -/
def generate_description {μ : Type} (ucid : String) (call : Nat → CallOutcome μ) :
    GenResult μ × List Nat :=
  genLoop ucid call 0 max_retries

/-! ## Entity builder recovery on malformed nodes
(src/Languages/Java/models.py, JavaClass.from_node / JavaMethod.from_node /
JavaField.from_node) -/

/-- The syntax-provider node as the builder consumes it: a type tag, the
byte-range text, field-keyed children and ordered children. -/
inductive TSNode where
  | node (ty : String) (txt : String) (fields : List (String × TSNode))
      (children : List TSNode)

/-- Node type tag. -/
def TSNode.type : TSNode → String
  | .node ty _ _ _ => ty

/-- Byte-range text of the node (`node.text.decode`). -/
def TSNode.text : TSNode → String
  | .node _ t _ _ => t

/-- Ordered children of the node. -/
def TSNode.childNodes : TSNode → List TSNode
  | .node _ _ _ cs => cs

/-- `node.child_by_field_name(name)`: `None` when the field is absent. -/
def TSNode.child_by_field_name : TSNode → String → Option TSNode
  | .node _ _ fs _, name => (fs.find? (fun p => p.1 == name)).map (fun p => p.2)

/-- The identifier extraction of `JavaMethod.from_node`
(src/Languages/Java/models.py lines 374-375): the name field's text when
present, the `"<init>"` placeholder otherwise.  Total: a missing name field
never raises. -/
def javaMethodIdentifier (node : TSNode) : String :=
  match node.child_by_field_name "name" with
  | some identifier_node => identifier_node.text
  | none => "<init>"

/-- The identifier extraction of `JavaField.from_node`
(src/Languages/Java/models.py lines 249-278): start from the `"Unknown"`
placeholder, take the first `variable_declarator` child, and only when it
carries a name field replace the placeholder by that text.  Total: a missing
declarator or name field never raises. -/
def javaFieldIdentifier (node : TSNode) : String :=
  let declarator := node.childNodes.find? (fun c => c.type == "variable_declarator")
  match declarator with
  | some d =>
      match d.child_by_field_name "name" with
      | some name_node => name_node.text
      | none => "Unknown"
  | none => "Unknown"

/-- The identifier extraction of `JavaClass.from_node`
(src/Languages/Java/models.py lines 106-107): the source reads
`identifier_node.text` with no guard on `child_by_field_name('name')`
returning `None`, so a class node without a name field raises
`AttributeError`; the embedding makes the failure explicit. -/
def javaClassIdentifier (node : TSNode) : Except String String :=
  match node.child_by_field_name "name" with
  | some identifier_node => .ok identifier_node.text
  | none => .error "AttributeError: NoneType object has no attribute text"

/-! ## Resolver lemmas and claim theorems -/

/-- Closed form of the per-name resolver loop: a local-tier hit resolves to
that single method; otherwise the import-tier matches are appended and — the
inner `continue` notwithstanding — control falls through to the short-name
tier, whose one-candidate and many-candidate branches both contribute the
whole candidate list. -/
theorem resolveName_eq (reg : OldRegistry) (cn : String) (imports : List String)
    (name : String) :
    resolveName reg cn imports name =
      match reg.lookupScoped (cn ++ "." ++ name) with
      | some m => [m]
      | none =>
          imports.filterMap (fun i => reg.lookupScoped (i ++ "." ++ name)) ++
            reg.lookupShort name := by
  unfold resolveName
  cases reg.lookupScoped (cn ++ "." ++ name) with
  | some m => rfl
  | none =>
      show _ ++ _ = _ ++ _
      congr 1
      generalize reg.lookupShort name = s
      match s with
      | [] => rfl
      | [m] => rfl
      | a :: b :: t => rfl

/-- The overload foo(int) of the arity scenario. -/
def fooInt : JMethod := ⟨"P", "foo", ["int a"]⟩

/-- The overload foo(int,int) of the arity scenario. -/
def fooIntInt : JMethod := ⟨"P", "foo", ["int a", "int b"]⟩

/-- A registry whose short-name index maps "foo" to exactly the two
overloads foo(int) and foo(int,int), and with no scoped entries reachable
from class C. -/
def regFoo : OldRegistry := ⟨[], [("foo", [fooInt, fooIntInt])]⟩

/-- C1 counterexample: with `by_short_name["foo"] = [foo(int), foo(int,int)]`
and a two-argument call site, resolution does not yield exactly foo(int,int):
it appends both overloads — the resolver never parses an argument count and
applies no arity filter. -/
theorem c1_arity_filter_counterexample :
    resolveName regFoo "C" [] "foo" ≠ [fooIntInt] ∧
    resolveName regFoo "C" [] "foo" = [fooInt, fooIntInt] := by
  decide

/-- C1 (amended): when the local tier misses and every import-qualified
lookup misses, the resolver appends every same-named candidate of the
short-name tier unchanged — no candidate is discarded by arity, because the
call site's argument list is never parsed. -/
theorem c1_no_arity_filter (reg : OldRegistry) (cn : String)
    (imports : List String) (name : String)
    (hlocal : reg.lookupScoped (cn ++ "." ++ name) = none)
    (himp : ∀ i ∈ imports, reg.lookupScoped (i ++ "." ++ name) = none) :
    resolveName reg cn imports name = reg.lookupShort name := by
  rw [resolveName_eq, hlocal, List.filterMap_eq_nil_iff.mpr himp]
  rfl

/-- C1 witness: the amended claim at the foo scenario — both overloads are
returned. -/
theorem c1_no_arity_filter_witness :
    resolveName regFoo "C" [] "foo" = [fooInt, fooIntInt] := by
  have h := c1_no_arity_filter regFoo "C" [] "foo" (by decide) (by simp)
  rw [h]
  decide

/-- The method A.helper() of the import scenario. -/
def helperA : JMethod := ⟨"A", "helper", []⟩

/-- A registry holding exactly A.helper(), scoped under "A.helper" and
short-named "helper". -/
def regAB : OldRegistry := ⟨[("A.helper", helperA)], [("helper", [helperA])]⟩

/-- C2: at the failing input — class B with `import A` calling `helper()`,
the registry holding exactly A.helper() — the import-tier hit does not stop
resolution: the `continue` only ends the inner import loop, control falls
through to the global short-name tier, and the same dependency is appended a
second time. -/
theorem c2_import_tier_falls_through :
    resolveName regAB "B" ["A"] "helper" = [helperA, helperA] ∧
    (resolve_dependencies regAB "B" ["A"] ["helper"] ⟨[], []⟩).dependencies.count
      helperA = 2 := by
  decide

/-- The recursive method A.recurse() calling itself. -/
def recMethod : JMethod := ⟨"A", "recurse", []⟩

/-- A registry holding exactly A.recurse(). -/
def regRec : OldRegistry := ⟨[("A.recurse", recMethod)], [("recurse", [recMethod])]⟩

/-- C3 counterexample: a method whose body calls its own name resolves
through the local tier to itself, and the resolver appends it — the method
is present in its own resolved dependency list. -/
theorem c3_self_dependency_counterexample :
    recMethod ∈ (resolve_dependencies regRec "A" [] ["recurse"] ⟨[], []⟩).dependencies := by
  decide

/-- C3 (amended): no self-filter exists — whenever the registry maps a
method's own scoped fullname to the method itself, resolving a raw name equal
to its identifier records a self-edge in its dependency list. -/
theorem c3_self_edge_recorded (reg : OldRegistry) (m : JMethod)
    (imports : List String) (s : ResolveState)
    (h : reg.lookupScoped (m.class_name ++ "." ++ m.identifier) = some m) :
    m ∈ (resolve_dependencies reg m.class_name imports [m.identifier] s).dependencies := by
  have hr : resolveName reg m.class_name imports m.identifier = [m] := by
    rw [resolveName_eq, h]
  simp [resolve_dependencies, hr]

/-- C3 witness: the amended claim at the A.recurse() scenario. -/
theorem c3_self_edge_recorded_witness :
    recMethod ∈ (resolve_dependencies regRec "A" ["J"] ["recurse"] ⟨[], []⟩).dependencies :=
  c3_self_edge_recorded regRec recMethod ["J"] ⟨[], []⟩ (by decide)

/-- The method A.calc(int) of the unresolved-name scenario. -/
def calcMethod : JMethod := ⟨"A", "calc", ["int x"]⟩

/-- A registry holding exactly A.calc(int); the raw token "max" of the
external call Math.max matches nothing. -/
def regCalc : OldRegistry := ⟨[("A.calc", calcMethod)], [("calc", [calcMethod])]⟩

/-- C4 counterexample: when no tier yields a candidate for the raw token
"max", the resolved list indeed stays empty and nothing is raised, but the
name is not recorded anywhere — the method's unresolved list does not become
`["max"]`, because the source resolver maintains no such record. -/
theorem c4_unresolved_counterexample :
    (resolve_dependencies regCalc "A" [] ["max"] ⟨[], []⟩).dependencies = [] ∧
    (resolve_dependencies regCalc "A" [] ["max"] ⟨[], []⟩).unresolved_dependencies ≠
      ["max"] := by
  decide

/-- C4 (amended): a raw name for which every tier misses is silently
dropped — the method's state is left completely unchanged: no dependency is
appended, nothing is recorded as unresolved, and no error is raised (the
resolver is total). -/
theorem c4_unmatched_name_dropped (reg : OldRegistry) (cn : String)
    (imports : List String) (name : String) (s : ResolveState)
    (hlocal : reg.lookupScoped (cn ++ "." ++ name) = none)
    (himp : ∀ i ∈ imports, reg.lookupScoped (i ++ "." ++ name) = none)
    (hshort : reg.lookupShort name = []) :
    resolve_dependencies reg cn imports [name] s = s := by
  have hr : resolveName reg cn imports name = [] := by
    rw [resolveName_eq, hlocal, List.filterMap_eq_nil_iff.mpr himp, hshort]
    rfl
  simp [resolve_dependencies, hr]

/-- C4 witness: the amended claim at the Math.max scenario. -/
theorem c4_unmatched_name_dropped_witness :
    resolve_dependencies regCalc "A" [] ["max"] ⟨[], []⟩ = ⟨[], []⟩ :=
  c4_unmatched_name_dropped regCalc "A" [] "max" ⟨[], []⟩ (by decide) (by simp)
    (by decide)

/-! ## Registry and cache lemmas and claim theorems -/

/-- A map whose function fixes every element of the list is the identity. -/
theorem map_eq_self_of_forall {α : Type} (l : List α) (f : α → α)
    (h : ∀ a ∈ l, f a = a) : l.map f = l := by
  induction l with
  | nil => rfl
  | cons a t ih =>
      rw [List.map_cons, h a (List.mem_cons_self a t),
        ih (fun x hx => h x (List.mem_cons_of_mem a hx))]

/-- Looking a registered method's umid up in the exported cache returns that
method's own hash and description, provided umids are pairwise distinct. -/
theorem cacheGet_get_method_cache (methods : List RMethod) (m : RMethod)
    (hm : m ∈ methods) (hnodup : (methods.map (fun x => x.umid)).Nodup) :
    cacheGet (get_method_cache methods) m.umid = some ⟨m.body_hash, m.description⟩ := by
  induction methods with
  | nil => cases hm
  | cons a t ih =>
      rw [List.map_cons, List.nodup_cons] at hnodup
      cases List.mem_cons.mp hm with
      | inl he =>
          subst he
          simp [cacheGet, get_method_cache]
      | inr ht =>
          have hne : (a.umid == m.umid) = false := by
            refine beq_eq_false_iff_ne.mpr ?_
            intro e
            exact hnodup.1 (e ▸ List.mem_map_of_mem (fun x => x.umid) ht)
          have := ih ht hnodup.2
          simpa [cacheGet, get_method_cache, List.find?_cons, hne] using this

/-- C5: after `load_cache` runs, each registered method's description is
seeded from the cache exactly when the cache holds an entry under its umid
whose stored hash equals the method's body hash; on a hash mismatch or an
absent entry the description is cleared to the empty string. -/
theorem c5_load_cache_seeds (cache : List (String × CacheEntry))
    (methods : List RMethod) (m : RMethod) (hm : m ∈ methods) :
    seedDescription cache m ∈ load_cache cache methods ∧
    ((∃ cd, cacheGet cache m.umid = some cd ∧ cd.hash = m.body_hash ∧
        (seedDescription cache m).description = cd.description) ∨
      ((∀ cd, cacheGet cache m.umid = some cd → cd.hash ≠ m.body_hash) ∧
        (seedDescription cache m).description = "")) := by
  constructor
  · exact List.mem_map_of_mem _ hm
  · cases h : cacheGet cache m.umid with
    | none =>
        refine Or.inr ⟨?_, ?_⟩
        · intro cd hcd
          cases hcd
        · simp [seedDescription, h]
    | some cd =>
        by_cases hh : cd.hash = m.body_hash
        · refine Or.inl ⟨cd, rfl, hh, ?_⟩
          simp [seedDescription, h, hh]
        · refine Or.inr ⟨?_, ?_⟩
          · intro cd' hcd'
            obtain rfl := Option.some.inj hcd'
            exact hh
          · simp [seedDescription, h, hh]

/-- A registered method with a cached matching hash, used as witness data. -/
def mA : RMethod := ⟨"P.A#f(int)", "P.A.f", "f", "hash-f", "reads f"⟩

/-- A registered dirty method, used as witness data. -/
def mB : RMethod := ⟨"P.A#g()", "P.A.g", "g", "hash-g", ""⟩

/-- A one-entry cache matching mA's hash. -/
def cacheA : List (String × CacheEntry) := [("P.A#f(int)", ⟨"hash-f", "reads f"⟩)]

/-- C5 witness: the seeding characterisation applied to a concrete
one-method registry and matching cache. -/
theorem c5_load_cache_seeds_witness :
    seedDescription cacheA mA ∈ load_cache cacheA [mA] :=
  (c5_load_cache_seeds cacheA [mA] mA (by simp)).1

/-- C6: exporting the cache and immediately loading it back is an identity
on the registered methods — each exported entry's hash equals the method's
current body hash, so every description survives — provided umids are
pairwise distinct, which `map_umid` (a dict keyed by umid) guarantees. -/
theorem c6_export_load_roundtrip (methods : List RMethod)
    (hnodup : (methods.map (fun x => x.umid)).Nodup) :
    load_cache (get_method_cache methods) methods = methods := by
  unfold load_cache
  apply map_eq_self_of_forall
  intro m hm
  have h := cacheGet_get_method_cache methods m hm hnodup
  simp [seedDescription, h]

/-- C6 witness: the round trip at a concrete two-method registry. -/
theorem c6_export_load_roundtrip_witness :
    load_cache (get_method_cache [mA, mB]) [mA, mB] = [mA, mB] :=
  c6_export_load_roundtrip [mA, mB] (by decide)

/-- Entry count of one key over a cons cell. -/
theorem countKey_cons {α : Type} (p : String × α) (t : List (String × α))
    (k : String) :
    countKey (p :: t) k = (if p.1 == k then 1 else 0) + countKey t k := by
  unfold countKey
  rw [List.filter_cons]
  cases h : p.1 == k <;> simp [h, Nat.add_comm]

/-- Defaultdict read over a cons cell. -/
theorem dictGetList_cons {α : Type} (p : String × List α) (t : List (String × List α))
    (k : String) :
    dictGetList (p :: t) k = if p.1 == k then p.2 else dictGetList t k := by
  unfold dictGetList
  rw [List.find?_cons]
  cases h : p.1 == k <;> simp [h]

/-- Key multiplicity after a dict write: an absent key gains exactly one
entry, an existing key keeps its multiplicity. -/
theorem countKey_dictSet {α : Type} (d : List (String × α)) (k : String) (v : α) :
    countKey (dictSet d k v) k = if countKey d k = 0 then 1 else countKey d k := by
  induction d with
  | nil => simp [dictSet, countKey]
  | cons p t ih =>
      cases h : p.1 == k with
      | true =>
          have h1 : dictSet (p :: t) k v = (k, v) :: t := by
            simp only [dictSet]
            rw [if_pos h]
          rw [h1, countKey_cons, countKey_cons, h]
          simp
      | false =>
          have h1 : dictSet (p :: t) k v = p :: dictSet t k v := by
            simp only [dictSet]
            rw [if_neg (by simp [h])]
          rw [h1, countKey_cons, countKey_cons, h, ih]
          simp

/-- Reading a defaultdict key after an append sees the appended element. -/
theorem dictGetList_dictAppend {α : Type} (d : List (String × List α)) (k : String)
    (v : α) : dictGetList (dictAppend d k v) k = dictGetList d k ++ [v] := by
  induction d with
  | nil => simp [dictAppend, dictGetList]
  | cons p t ih =>
      cases h : p.1 == k with
      | true =>
          have h1 : dictAppend (p :: t) k v = (p.1, p.2 ++ [v]) :: t := by
            simp only [dictAppend]
            rw [if_pos h]
          rw [h1]
          simp [dictGetList_cons, h]
      | false =>
          have h1 : dictAppend (p :: t) k v = p :: dictAppend t k v := by
            simp only [dictAppend]
            rw [if_neg (by simp [h])]
          rw [h1]
          simp [dictGetList_cons, h, ih]

/-- C10: registering a not-yet-registered method twice leaves exactly one
entry under its umid (the second dict write overwrites the first) but two
occurrences of the method in the scoped-identifier list and two in the
short-name list — no duplicate check exists, so the three indices disagree
about the registration count. -/
theorem c10_add_method_twice (reg : MemberRegistry) (m : RMethod)
    (h1 : countKey reg.map_umid m.umid = 0)
    (h2 : (dictGetList reg.map_scoped m.scoped_identifier).count m = 0)
    (h3 : (dictGetList reg.map_short m.identifier).count m = 0) :
    countKey ((reg.add_method m).add_method m).map_umid m.umid = 1 ∧
    (dictGetList ((reg.add_method m).add_method m).map_scoped
      m.scoped_identifier).count m = 2 ∧
    (dictGetList ((reg.add_method m).add_method m).map_short
      m.identifier).count m = 2 := by
  refine ⟨?_, ?_, ?_⟩
  · show countKey (dictSet (dictSet reg.map_umid m.umid m) m.umid m) m.umid = 1
    rw [countKey_dictSet, countKey_dictSet, h1]
    simp
  · show (dictGetList (dictAppend (dictAppend reg.map_scoped m.scoped_identifier m)
      m.scoped_identifier m) m.scoped_identifier).count m = 2
    rw [dictGetList_dictAppend, dictGetList_dictAppend]
    simp [List.count_append, h2]
  · show (dictGetList (dictAppend (dictAppend reg.map_short m.identifier m)
      m.identifier m) m.identifier).count m = 2
    rw [dictGetList_dictAppend, dictGetList_dictAppend]
    simp [List.count_append, h3]

/-- The registry before any registration. -/
def emptyRegistry : MemberRegistry := ⟨[], [], []⟩

/-- C10 witness: double registration of a concrete method into the empty
registry yields index multiplicities 1, 2 and 2. -/
theorem c10_add_method_twice_witness :
    countKey ((emptyRegistry.add_method mA).add_method mA).map_umid mA.umid = 1 ∧
    (dictGetList ((emptyRegistry.add_method mA).add_method mA).map_scoped
      mA.scoped_identifier).count mA = 2 ∧
    (dictGetList ((emptyRegistry.add_method mA).add_method mA).map_short
      mA.identifier).count mA = 2 :=
  c10_add_method_twice emptyRegistry mA (by decide) (by decide) (by decide)

/-! ## Generation client claim theorems -/

/-- One unrolling of the retry loop at positive fuel. -/
theorem genLoop_succ {μ : Type} (ucid : String) (call : Nat → CallOutcome μ)
    (attempt fuel : Nat) :
    genLoop ucid call attempt (fuel + 1) =
      match call attempt with
      | .ok v => (.success v, [])
      | .exn error_str =>
          if isTransient error_str ∧ attempt < max_retries - 1 then
            ((genLoop ucid call (attempt + 1) fuel).1,
              base_delay * 2 ^ attempt :: (genLoop ucid call (attempt + 1) fuel).2)
          else (.errorRecord ucid error_str "error", []) := rfl

/-- A transient failure strictly before the last attempt sleeps the
exponential delay and retries. -/
theorem genLoop_retry {μ : Type} (ucid : String) (call : Nat → CallOutcome μ)
    (attempt fuel : Nat) (msg : String) (hm : call attempt = .exn msg)
    (htr : isTransient msg = true) (hlt : attempt < max_retries - 1) :
    genLoop ucid call attempt (fuel + 1) =
      ((genLoop ucid call (attempt + 1) fuel).1,
        base_delay * 2 ^ attempt :: (genLoop ucid call (attempt + 1) fuel).2) := by
  rw [genLoop_succ, hm]
  simp [htr, hlt]

/-- A failure that is non-transient, or at the last attempt, returns the
error record at once. -/
theorem genLoop_stop {μ : Type} (ucid : String) (call : Nat → CallOutcome μ)
    (attempt fuel : Nat) (msg : String) (hm : call attempt = .exn msg)
    (h : ¬(isTransient msg = true ∧ attempt < max_retries - 1)) :
    genLoop ucid call attempt (fuel + 1) = (.errorRecord ucid msg "error", []) := by
  rw [genLoop_succ, hm]
  simp only [if_neg h]

/-- C7: an always-transient failure (rate-limit 429 / unavailable 503) is
retried up to `max_retries` attempts with exponentially growing backoff
delays, after which an error record with status "error" and the last message
is returned — not raised; a non-transient failure at the first attempt
returns the error record at once with no backoff.  Each class's call returns
a value either way, so no other class's processing is affected. -/
theorem c7_retry_and_error_record {μ : Type} (ucid : String)
    (call : Nat → CallOutcome μ) (e : Nat → String) :
    ((∀ a, call a = .exn (e a)) → (∀ a, isTransient (e a) = true) →
        generate_description ucid call =
          (.errorRecord ucid (e 2) "error", [base_delay * 2 ^ 0, base_delay * 2 ^ 1])) ∧
    (∀ msg, call 0 = .exn msg → isTransient msg = false →
        generate_description ucid call = (.errorRecord ucid msg "error", [])) := by
  constructor
  · intro hc ht
    show genLoop ucid call 0 (2 + 1) = _
    rw [genLoop_retry ucid call 0 2 (e 0) (hc 0) (ht 0) (by decide)]
    rw [show (2 : Nat) = 1 + 1 from rfl,
      genLoop_retry ucid call 1 1 (e 1) (hc 1) (ht 1) (by decide)]
    rw [show (1 : Nat) = 0 + 1 from rfl,
      genLoop_stop ucid call 2 0 (e 2) (hc 2) (by simp [max_retries])]
  · intro msg hm htr
    show genLoop ucid call 0 (2 + 1) = _
    rw [genLoop_stop ucid call 0 2 msg hm (by simp [htr])]

/-- C7 witness: three 503 failures produce the error record after backoff
delays 2 and 4; definitions evaluated at a concrete call oracle. -/
theorem c7_retry_witness :
    generate_description "com.X" (fun _ => CallOutcome.exn (μ := Unit) "503") =
      (.errorRecord "com.X" "503" "error", [2, 4]) := by
  have h := (c7_retry_and_error_record "com.X"
    (fun _ => CallOutcome.exn (μ := Unit) "503") (fun _ => "503")).1
    (fun _ => rfl) (fun _ => by decide)
  simpa using h

/-- The warm-start dict comprehension `cached_methods` (src/llm_client.py
lines 65-68): index to description over methods with a truthy description. -/
def cached_methods_payload (methods : List GMethod) : List (Nat × String) :=
  methods.enum.filterMap (fun p =>
    if p.2.description != "" then some (p.1, p.2.description) else none)

/-- The warm-start dict comprehension `methods_to_generate`
(src/llm_client.py lines 69-73): index to body over methods with an empty
description. -/
def methods_to_generate_payload (methods : List GMethod) : List (Nat × String) :=
  methods.enum.filterMap (fun p =>
    if p.2.description == "" then some (p.1, p.2.body) else none)

/-- The cold-start dict comprehension `method_ids_to_signatures`
(src/llm_client.py line 55): index to signature over every method. -/
def method_ids_to_signatures (methods : List GMethod) : List (Nat × String) :=
  methods.enum.map (fun p => (p.1, p.2.signature))

/-- C8: with at least one cached description the warm payload is built, its
regeneration map holds exactly the dirty methods' bodies and its cache map
exactly the clean methods' descriptions (a clean method's body is never
sent); with no cached description the cold payload is built, carrying the
full class body and an index-to-signature entry for every method. -/
theorem c8_payload_shaping (class_obj : GClass) (imports : List String) :
    ((∃ m ∈ class_obj.methods, m.description ≠ "") →
      build_payload class_obj imports =
        .warm class_obj.ucid class_obj.fields
          (cached_methods_payload class_obj.methods)
          (methods_to_generate_payload class_obj.methods)
          imports class_obj.child_classes) ∧
    (∀ i b, (i, b) ∈ methods_to_generate_payload class_obj.methods ↔
      ∃ m, class_obj.methods[i]? = some m ∧ m.description = "" ∧ b = m.body) ∧
    (∀ i d, (i, d) ∈ cached_methods_payload class_obj.methods ↔
      ∃ m, class_obj.methods[i]? = some m ∧ m.description ≠ "" ∧ d = m.description) ∧
    ((∀ m ∈ class_obj.methods, m.description = "") →
      build_payload class_obj imports =
        .cold class_obj.body class_obj.ucid imports
          (method_ids_to_signatures class_obj.methods)
          (class_obj.child_classes.map (fun p => p.1))) := by
  refine ⟨?_, ?_, ?_, ?_⟩
  · intro ⟨m, hm, hne⟩
    have hany : class_obj.methods.any (fun m => m.description != "") = true :=
      List.any_eq_true.mpr ⟨m, hm, by simpa using hne⟩
    unfold build_payload
    rw [if_pos hany]
    rfl
  · intro i b
    constructor
    · intro hmem
      obtain ⟨⟨j, m⟩, hj, hf⟩ := List.mem_filterMap.mp hmem
      by_cases hd : m.description = ""
      · simp [hd] at hf
        obtain ⟨rfl, rfl⟩ := hf
        exact ⟨m, List.mk_mem_enum_iff_getElem?.mp hj, hd, rfl⟩
      · have : (m.description == "") = false := by simpa using hd
        simp [this] at hf
    · rintro ⟨m, hget, hd, rfl⟩
      refine List.mem_filterMap.mpr ⟨(i, m), List.mk_mem_enum_iff_getElem?.mpr hget, ?_⟩
      simp [hd]
  · intro i d
    constructor
    · intro hmem
      obtain ⟨⟨j, m⟩, hj, hf⟩ := List.mem_filterMap.mp hmem
      by_cases hd : m.description = ""
      · have : (m.description != "") = false := by simp [hd]
        simp [this] at hf
      · have hne : (m.description != "") = true := by simpa using hd
        simp [hne] at hf
        obtain ⟨rfl, rfl⟩ := hf
        exact ⟨m, List.mk_mem_enum_iff_getElem?.mp hj, hd, rfl⟩
    · rintro ⟨m, hget, hd, rfl⟩
      refine List.mem_filterMap.mpr ⟨(i, m), List.mk_mem_enum_iff_getElem?.mpr hget, ?_⟩
      have : (m.description != "") = true := by simpa using hd
      simp [this]
  · intro hall
    have hany : class_obj.methods.any (fun m => m.description != "") = false := by
      rw [List.any_eq_false]
      intro m hm
      simp [hall m hm]
    unfold build_payload
    rw [if_neg (by simp [hany])]
    rfl

/-- A class with one clean and one dirty method, used as witness data. -/
def clsWarm : GClass :=
  ⟨"P.C", "class body", [⟨"void f()", "bf", "desc f"⟩, ⟨"void g()", "bg", ""⟩],
    ["int x"], [("class D", "d desc")]⟩

/-- C8 witness: the warm payload at a concrete class sends only the dirty
method's body and only the clean method's description. -/
theorem c8_payload_shaping_witness :
    build_payload clsWarm ["I"] =
      .warm "P.C" ["int x"] [(0, "desc f")] [(1, "bg")] ["I"] [("class D", "d desc")] := by
  have h := (c8_payload_shaping clsWarm ["I"]).1
    ⟨⟨"void f()", "bf", "desc f"⟩, by simp [clsWarm], by decide⟩
  rw [h]
  decide

/-! ## Builder claim theorem -/

/-- A class_declaration node with no name field. -/
def namelessClassNode : TSNode := .node "class_declaration" "" [] []

/-- A method_declaration node with no name field. -/
def namelessMethodNode : TSNode := .node "method_declaration" "" [] []

/-- A field_declaration node with no declarator or name field. -/
def namelessFieldNode : TSNode := .node "field_declaration" "" [] []

/-- C9: a method node missing its name field degrades to the placeholder
identifier "<init>" and a field node to "Unknown", but a class node missing
its name field does not degrade: `JavaClass.from_node` dereferences the
absent name child and raises, so the enclosing file build aborts. -/
theorem c9_builder_placeholders :
    javaMethodIdentifier namelessMethodNode = "<init>" ∧
    javaFieldIdentifier namelessFieldNode = "Unknown" ∧
    javaClassIdentifier namelessClassNode =
      .error "AttributeError: NoneType object has no attribute text" :=
  ⟨rfl, rfl, rfl⟩

end Docgen
